import Mathlib

/-!
Verification development for the `lowmain` agent-native Neo4j CLI.

This file shallowly embeds the core of the program — the query compiler,
result normalizer, error classifier, connection resolver and the
suggestion ("next action") generator — as executable Lean definitions,
mirroring the Rust source in `src/error.rs`, `src/convert.rs`,
`src/neo4j_client.rs` and `src/commands/{nodes,rels,query,schema}.rs`,
and proves properties of the embedded definitions.

The external Neo4j driver (`neo4rs`) and JSON library (`serde_json`) are
out of scope of the program core; they appear here only through the
interfaces the core consumes: typed property decoders on an abstract
Bolt value type, a row stream given as a list, and a JSON-object parser
passed in as a function argument.
-/

namespace Lowmain

/-! ## String utilities -/

/-- Substring containment, modelling Rust `str::contains` for string
patterns: the pattern occurs contiguously in the haystack. -/
def strContains (hay pat : String) : Bool :=
  decide (List.IsInfix pat.toList hay.toList)

/-- Value of a nonempty all-digit character list, modelling the digit
accumulation done by Rust integer parsing. -/
def digitsVal : List Char → Option Nat
  | [] => none
  | cs =>
    if cs.all Char.isDigit then
      some (cs.foldl (fun a c => a * 10 + (c.toNat - 48)) 0)
    else
      none

/-- Rust `str::parse::<i64>`: an optional sign followed by at least one
ASCII digit, nothing else; the value must fit in the `i64` range. -/
def parseI64 (s : String) : Option Int :=
  let core : Option Int :=
    match s.toList with
    | '+' :: rest => (digitsVal rest).map Int.ofNat
    | '-' :: rest => (digitsVal rest).map (fun n => -(n : Int))
    | cs => (digitsVal cs).map Int.ofNat
  core.bind fun n =>
    if -(2 ^ 63) ≤ n ∧ n < 2 ^ 63 then some n else none

/-- Rust `str::parse::<usize>` (64-bit): an optional `+` followed by at
least one ASCII digit, nothing else; the value must fit in `u64`. -/
def parseUsize (s : String) : Option Nat :=
  let core : Option Nat :=
    match s.toList with
    | '+' :: rest => digitsVal rest
    | cs => digitsVal cs
  core.bind fun n => if n < 2 ^ 64 then some n else none

/-- Helper for `splitOnce`: split a character list at the first
occurrence of `c`. -/
def splitOnceAux (c : Char) : List Char → Option (List Char × List Char)
  | [] => none
  | x :: xs =>
    if x = c then some ([], xs)
    else (splitOnceAux c xs).map (fun p => (x :: p.1, p.2))

/-- Rust `str::split_once(c)`: split at the first occurrence of `c`,
returning `none` when `c` does not occur. -/
def splitOnce (s : String) (c : Char) : Option (String × String) :=
  (splitOnceAux c s.toList).map fun p => (⟨p.1⟩, ⟨p.2⟩)

/-! ## JSON values (the fragment of `serde_json::Value` the core uses) -/

/-- JSON values. Integer-representable numbers (`as_i64` succeeds) are
`numI`; other numbers (`f64`) are `numF`, carried by bit pattern since
no proof here computes with floating point. -/
inductive Json where
  | null
  | bool (b : Bool)
  | numI (i : Int)
  | numF (bits : Nat)
  | str (s : String)
  | arr (xs : List Json)
  | obj (fields : List (String × Json))
  deriving Repr

/-- Models `serde_json` `Value::as_i64`: only integer numbers. -/
def Json.asInt : Json → Option Int
  | .numI i => some i
  | _ => none

/-- Models the `serde_json::Map::insert` observable behaviour on an association
list: replace the value in place if the key exists, else append. -/
def mapInsert : List (String × Json) → String → Json → List (String × Json)
  | [], k, v => [(k, v)]
  | (k', v') :: rest, k, v =>
    if k' = k then (k, v) :: rest else (k', v') :: mapInsert rest k v

/-- Map lookup (`serde_json::Map::get`). -/
def mapGet (m : List (String × Json)) (k : String) : Option Json :=
  (m.find? (fun p => p.1 = k)).map (fun p => p.2)

/-! ## Error taxonomy (`src/error.rs`) -/

/-- The error taxonomy `AppError` from `src/error.rs`. -/
inductive AppError where
  | connectionFailed (reason : String)
  | authenticationFailed (reason : String)
  | cypherSyntaxError (detail : String)
  | constraintViolation (detail : String)
  | queryFailed (reason : String)
  | nodeNotFound (id : String)
  | relNotFound (id : String)
  | connectionNotConfigured
  | invalidParams (reason : String)
  deriving Repr, DecidableEq

/-- Mirrors `AppError::retryable` from `src/error.rs`: only `ConnectionFailed`. -/
def AppError.retryable : AppError → Bool
  | .connectionFailed _ => true
  | _ => false

/-- Mirrors `map_neo4j_error` from `src/error.rs`, the classifier of driver
error descriptions, transcribed branch by branch. -/
def map_neo4j_error (msg : String) : AppError :=
  if strContains msg "authentication" || strContains msg "Unauthorized"
      || strContains msg "credentials" then
    .authenticationFailed msg
  else if strContains msg "SyntaxError" || strContains msg "Invalid input" then
    .cypherSyntaxError msg
  else if strContains msg "ConstraintValidationFailed"
      || strContains msg "already exists" then
    .constraintViolation msg
  else if strContains msg "connection" || strContains msg "Connection"
      || strContains msg "refused" then
    .connectionFailed msg
  else
    .queryFailed msg

/-! Spec-side view of the classifier: an ordered rule table, first match
wins, used to state that the code applies exactly the spec's priority
order. -/

/-- Markers whose presence classifies a message as authentication
failure (spec priority 1). -/
def authMarkers : List String := ["authentication", "Unauthorized", "credentials"]

/-- Markers for Cypher syntax errors (spec priority 2). -/
def syntaxMarkers : List String := ["SyntaxError", "Invalid input"]

/-- Markers for constraint violations (spec priority 3). -/
def constraintMarkers : List String := ["ConstraintValidationFailed", "already exists"]

/-- Markers for connection failures (spec priority 4). -/
def connectionMarkers : List String := ["connection", "Connection", "refused"]

/-- The spec's priority-ordered rule table. -/
def classifyRules : List (List String × (String → AppError)) :=
  [(authMarkers, .authenticationFailed),
   (syntaxMarkers, .cypherSyntaxError),
   (constraintMarkers, .constraintViolation),
   (connectionMarkers, .connectionFailed)]

/-- First-match-wins classification over the spec's rule table, with
`QueryFailed` as the catch-all. -/
def classifySpec (msg : String) : AppError :=
  match classifyRules.find? (fun rule => rule.1.any (fun m => strContains msg m)) with
  | some rule => rule.2 msg
  | none => .queryFailed msg

/-! ## Driver-native property values and the result normalizer
(`src/convert.rs`) -/

/-- Driver-native Bolt property values as seen through the typed getters
the core uses. `float` carries an `f64` bit pattern (no proof computes
with floating point); `other` stands for any Bolt type outside the
decoded fragment (null, map, temporal, spatial, ...). -/
inductive BoltVal where
  | int (i : Int)
  | float (bits : Nat)
  | bool (b : Bool)
  | str (s : String)
  | list (xs : List BoltVal)
  | other
  deriving Repr

/-- Driver `get::<i64>`: succeeds only on a Bolt integer. -/
def BoltVal.asI64 : BoltVal → Option Int
  | .int i => some i
  | _ => none

/-- Driver `get::<f64>`: succeeds only on a Bolt float. -/
def BoltVal.asF64 : BoltVal → Option Nat
  | .float b => some b
  | _ => none

/-- Driver `get::<bool>`. -/
def BoltVal.asBool : BoltVal → Option Bool
  | .bool b => some b
  | _ => none

/-- Driver `get::<String>`. -/
def BoltVal.asString : BoltVal → Option String
  | .str s => some s
  | _ => none

/-- Driver `get::<Vec<String>>`: a Bolt list whose elements all decode
as strings. -/
def BoltVal.asVecString : BoltVal → Option (List String)
  | .list xs => xs.mapM BoltVal.asString
  | _ => none

/-- Driver `get::<Vec<i64>>`: a Bolt list whose elements all decode as
integers. -/
def BoltVal.asVecI64 : BoltVal → Option (List Int)
  | .list xs => xs.mapM BoltVal.asI64
  | _ => none

/-- Mirrors `node_field_to_json` from `src/convert.rs`: the if-let chain trying
i64, f64, bool, String, Vec<String>, Vec<i64>, with `Null` fallback. -/
def node_field_to_json (v : BoltVal) : Json :=
  match v.asI64 with
  | some i => .numI i
  | none =>
  match v.asF64 with
  | some b => .numF b
  | none =>
  match v.asBool with
  | some b => .bool b
  | none =>
  match v.asString with
  | some s => .str s
  | none =>
  match v.asVecString with
  | some ss => .arr (ss.map .str)
  | none =>
  match v.asVecI64 with
  | some is => .arr (is.map .numI)
  | none => .null

/-- Mirrors `rel_field_to_json` from `src/convert.rs`: i64, f64, bool, String,
with `Null` fallback (no array attempts). -/
def rel_field_to_json (v : BoltVal) : Json :=
  match v.asI64 with
  | some i => .numI i
  | none =>
  match v.asF64 with
  | some b => .numF b
  | none =>
  match v.asBool with
  | some b => .bool b
  | none =>
  match v.asString with
  | some s => .str s
  | none => .null

/-- A driver node: internal id, ordered labels, keyed properties (in
key-iteration order). -/
structure NodeData where
  id : Int
  labels : List String
  props : List (String × BoltVal)

/-- A driver relationship: internal id, endpoint ids, type, keyed
properties. -/
structure RelData where
  id : Int
  startNodeId : Int
  endNodeId : Int
  typ : String
  props : List (String × BoltVal)

/-- Mirrors `node_to_json` from `src/convert.rs`: insert `_id` and `_labels`,
then insert every property through `node_field_to_json`. -/
def node_to_json (n : NodeData) : List (String × Json) :=
  let m := mapInsert (mapInsert [] "_id" (.numI n.id)) "_labels"
    (.arr (n.labels.map .str))
  n.props.foldl (fun m kv => mapInsert m kv.1 (node_field_to_json kv.2)) m

/-- Mirrors `relation_to_json` from `src/convert.rs`: insert `_id`,
`_start_node_id`, `_end_node_id`, `_type`, then every property through
`rel_field_to_json`. -/
def relation_to_json (r : RelData) : List (String × Json) :=
  let m := mapInsert (mapInsert (mapInsert (mapInsert [] "_id" (.numI r.id))
    "_start_node_id" (.numI r.startNodeId)) "_end_node_id" (.numI r.endNodeId))
    "_type" (.str r.typ)
  r.props.foldl (fun m kv => mapInsert m kv.1 (rel_field_to_json kv.2)) m

/-- Spec-side "ordered attempt" combinator: try each decoder in order,
first success wins, `null` when none succeeds. -/
def orderedAttempt : List (BoltVal → Option Json) → BoltVal → Json
  | [], _ => .null
  | d :: ds, v =>
    match d v with
    | some j => j
    | none => orderedAttempt ds v

/-- The spec's decode order for node properties: integer, float,
boolean, string, array-of-string, array-of-integer. -/
def nodeDecoders : List (BoltVal → Option Json) :=
  [fun v => (v.asI64).map .numI,
   fun v => (v.asF64).map .numF,
   fun v => (v.asBool).map .bool,
   fun v => (v.asString).map .str,
   fun v => (v.asVecString).map (fun ss => .arr (ss.map .str)),
   fun v => (v.asVecI64).map (fun is => .arr (is.map .numI))]

/-- The spec's decode order for relationship properties: integer,
float, boolean, string only. -/
def relDecoders : List (BoltVal → Option Json) :=
  [fun v => (v.asI64).map .numI,
   fun v => (v.asF64).map .numF,
   fun v => (v.asBool).map .bool,
   fun v => (v.asString).map .str]

/-! ## Query parameters and the per-operation query compilers -/

/-- A value bound through the driver's parameter channel. `jsonText j`
stands for the textual JSON rendering of `j` bound as a string
parameter (the `val.to_string()` fallback of the source). -/
inductive ParamVal where
  | str (s : String)
  | int (i : Int)
  | float (bits : Nat)
  | bool (b : Bool)
  | jsonText (j : Json)
  deriving Repr

/-- A compiled query: text plus named parameter bindings. -/
structure CompiledQuery where
  text : String
  params : List (String × ParamVal)
  deriving Repr

/-- Parameter conversion of a JSON value, from the `match val` blocks of
`src/commands/{nodes,rels,query}.rs`: string, integer-representable
number, other number (f64), boolean, and the stringified fallback. -/
def jsonToParam : Json → ParamVal
  | .str s => .str s
  | .numI i => .int i
  | .numF b => .float b
  | .bool b => .bool b
  | j => .jsonText j

/-- The limit resolution shared by `node find`, `rel find` and `query`:
parse the `--limit` flag as `usize`, defaulting to 100. -/
def limitOf (limitFlag : Option String) : Nat :=
  (limitFlag.bind parseUsize).getD 100

/-- Query compilation of `node find` (`src/commands/nodes.rs`,
`find_command`): the label is embedded backtick-quoted; a `--where`
flag is split at its first `=` (no `=` is an `InvalidParams` error),
the property key embedded backtick-quoted and the value bound as the
named parameter `val`; the limit is written into the text. -/
def nodesFindCompile (label : String) (whereFlag : Option String)
    (limitFlag : Option String) : Except AppError CompiledQuery :=
  let limit := limitOf limitFlag
  match whereFlag with
  | some w =>
    match splitOnce w '=' with
    | none => .error (.invalidParams "Invalid --where format. Use prop=value")
    | some (prop, val) =>
      .ok { text := "MATCH (n:`" ++ label ++ "`) WHERE n.`" ++ prop ++
              "` = $val RETURN n LIMIT " ++ toString limit,
            params := [("val", .str val)] }
  | none =>
    .ok { text := "MATCH (n:`" ++ label ++ "`) RETURN n LIMIT " ++ toString limit,
          params := [] }

/-- The relationship pattern of `rel find`: `[r:`type`]` when a type is
given, else `[r]`. -/
def relPatternOf : Option String → String
  | some t => "[r:`" ++ t ++ "`]"
  | none => "[r]"

/-- Query compilation of `rel find` (`src/commands/rels.rs`,
`find_command`): `--from`/`--to` are parsed as `i64`, a failed parse
silently dropping the flag; present endpoint ids contribute a WHERE
conjunct and a named parameter binding; the type is embedded
backtick-quoted and the limit written into the text. -/
def relsFindCompile (fromFlag toFlag typeFlag limitFlag : Option String) :
    CompiledQuery :=
  let limit := limitOf limitFlag
  let fromId := fromFlag.bind parseI64
  let toId := toFlag.bind parseI64
  let relPattern := relPatternOf typeFlag
  let whereClauses :=
    (if fromId.isSome then ["id(a) = $from_id"] else []) ++
    (if toId.isSome then ["id(b) = $to_id"] else [])
  let whereStr :=
    if whereClauses.isEmpty then ""
    else " WHERE " ++ String.intercalate " AND " whereClauses
  { text := "MATCH (a)-" ++ relPattern ++ "->(b)" ++ whereStr ++
      " RETURN r, id(a) AS from_id, id(b) AS to_id LIMIT " ++ toString limit,
    params :=
      (match fromId with
       | some f => [("from_id", ParamVal.int f)]
       | none => []) ++
      (match toId with
       | some t => [("to_id", ParamVal.int t)]
       | none => []) }

/-! ## Connection resolver (`src/neo4j_client.rs`) -/

/-- A parsed command request: named flags and positional arguments. -/
structure Request where
  flags : List (String × String)
  args : List String

/-- Mirrors `CommandRequest::flag`. -/
def Request.flag (r : Request) (name : String) : Option String :=
  (r.flags.find? (fun p => p.1 = name)).map (fun p => p.2)

/-- Mirrors `CommandRequest::arg`. -/
def Request.arg (r : Request) (n : Nat) : Option String :=
  r.args.get? n

/-- The process environment the resolver reads. -/
structure Env where
  uri : Option String
  user : Option String
  password : Option String
  db : Option String

def DEFAULT_URI : String := "bolt://localhost:7687"
def DEFAULT_USER : String := "neo4j"
def DEFAULT_DB : String := "neo4j"

/-- Mirrors `resolve` from `src/neo4j_client.rs`: CLI flag, else environment
variable, else default. -/
def resolve (flagVal envVal dflt : Option String) : Option String :=
  (flagVal.orElse fun _ => envVal).orElse fun _ => dflt

/-- The resolved connection configuration. -/
structure ConnConfig where
  uri : String
  user : String
  password : String
  db : String

/-- A network interaction with the external store. -/
inductive NetEvent where
  | connect
  | execute (q : String)
  | run (q : String)
  deriving Repr, DecidableEq

/-- Mirrors `from_request` from `src/neo4j_client.rs`: resolve uri, user,
password, db (password has no default; its absence is
`ConnectionNotConfigured`), then connect. The returned event list
records the network interactions performed; connecting is the only one
and happens only after the password check succeeds. -/
def from_request (req : Request) (env : Env) :
    Except AppError ConnConfig × List NetEvent :=
  let uri := (resolve (req.flag "uri") env.uri (some DEFAULT_URI)).getD DEFAULT_URI
  let user := (resolve (req.flag "user") env.user (some DEFAULT_USER)).getD DEFAULT_USER
  match resolve (req.flag "password") env.password none with
  | none => (.error .connectionNotConfigured, [])
  | some pw =>
    let db := (resolve (req.flag "db") env.db (some DEFAULT_DB)).getD DEFAULT_DB
    (.ok { uri := uri, user := user, password := pw, db := db }, [.connect])

/-! ## Next-action suggestions (the `agcli` builder surface the
handlers drive) -/

/-- Models `ActionParam`: description, required flag, optional enumerated
allowed values. -/
structure ActionParam where
  description : Option String := none
  required : Bool := false
  enumValues : List String := []
  deriving Repr

/-- Models `NextAction`: a templated follow-up command, its human label, and
its declared parameters. -/
structure NextAction where
  command : String
  label : String
  params : List (String × ActionParam) := []
  deriving Repr

/-- The suggestion list of `node find` (`src/commands/nodes.rs` lines
55–72): one `node get` suggestion per found node id, capped by
`take(5)`, followed by a fixed `node create` suggestion. -/
def nodesFindNextActions (node_ids : List Int) (label : String) :
    List NextAction :=
  (node_ids.take 5).map (fun id =>
    { command := "lowmain node get " ++ toString id,
      label := "Get node " ++ toString id ++ " details" })
  ++ [{ command := "lowmain node create --label=" ++ label,
        label := "Create a new " ++ label ++ " node",
        params := [("--props",
          { description := some "JSON properties", required := true })] }]

/-- The suggestion list of the top-level `schema` command
(`src/commands/schema.rs` lines 140–170): one `node find` suggestion
per label (no cap), then a fixed `node create` suggestion whose
`--label` enumerates the labels, then a fixed `query` suggestion. -/
def schemaRegisterNextActions (labels : List String) : List NextAction :=
  (labels.map (fun l =>
    { command := "lowmain node find --label=" ++ l,
      label := "Find " ++ l ++ " nodes" }))
  ++ [{ command := "lowmain node create",
        label := "Create a new node",
        params := [("--label",
          { description := some "Node label", required := true,
            enumValues := labels }),
         ("--props",
          { description := some "JSON properties", required := true })] },
      { command := "lowmain query",
        label := "Execute a Cypher query",
        params := [("cypher", { required := true })] }]

/-- The suggestion list of `schema labels` (`src/commands/schema.rs`
lines 15–23): one `node find` suggestion per label, no cap. -/
def schemaLabelsNextActions (labels : List String) : List NextAction :=
  labels.map (fun l =>
    { command := "lowmain node find --label=" ++ l,
      label := "Find " ++ l ++ " nodes" })

/-- The suggestion list of `schema types` (`src/commands/schema.rs`
lines 38–46): one `rel find` suggestion per relationship type, no cap. -/
def schemaTypesNextActions (types : List String) : List NextAction :=
  types.map (fun t =>
    { command := "lowmain rel find --type=" ++ t,
      label := "Find " ++ t ++ " relationships" })

/-! ## Command handlers as functions of the request, environment and
the store's row stream -/

/-- A command's successful output: its JSON payload and attached
next-action suggestions. -/
structure CommandOutput where
  data : Json
  nextActions : List NextAction

/-- Handler of `node find` (`src/commands/nodes.rs`, `find_command`), sequenced as
in the source: check `--label`, connect via `from_request`, then
compile (a malformed `--where` is only detected here), then execute and
normalize the streamed nodes. `stream` is the store's reply to the
compiled query. -/
def nodesFindRun (req : Request) (env : Env) (stream : List NodeData) :
    Except AppError CommandOutput × List NetEvent :=
  match req.flag "label" with
  | none =>
    (.error (.invalidParams
      "Missing --label. Usage: lowmain node find --label=Person"), [])
  | some label =>
    match from_request req env with
    | (.error e, tr) => (.error e, tr)
    | (.ok _, tr) =>
      match nodesFindCompile label (req.flag "where") (req.flag "limit") with
      | .error e => (.error e, tr)
      | .ok cq =>
        let nodes := stream.map node_to_json
        let count := nodes.length
        let node_ids := nodes.filterMap
          (fun n => (mapGet n "_id").bind Json.asInt)
        (.ok { data := .obj [("cypher", .str cq.text),
                             ("nodes", .arr (nodes.map .obj)),
                             ("count", .numI (count : Int)),
                             ("label", .str label)],
               nextActions := nodesFindNextActions node_ids label },
         tr ++ [.execute cq.text])

/-- Handler of `node get` (`src/commands/nodes.rs`, `get_command`): require a
positional id, parse it as `i64` (failure is `InvalidParams`), connect,
execute, and report `NodeNotFound` on an empty result. `stream` is the
store's reply. -/
def nodeGetRun (req : Request) (env : Env) (stream : List NodeData) :
    Except AppError CommandOutput × List NetEvent :=
  match req.arg 0 with
  | none =>
    (.error (.invalidParams "Missing node ID. Usage: lowmain node get <id>"), [])
  | some idStr =>
    match parseI64 idStr with
    | none => (.error (.invalidParams ("Invalid node ID: " ++ idStr)), [])
    | some id =>
      match from_request req env with
      | (.error e, tr) => (.error e, tr)
      | (.ok _, tr) =>
        let text :=
          "MATCH (n) WHERE elementId(n) = toString($id) OR id(n) = $id RETURN n"
        let tr := tr ++ [.execute text]
        match stream with
        | [] => (.error (.nodeNotFound idStr), tr)
        | n :: _ =>
          (.ok { data := .obj [("node", .obj (node_to_json n))],
                 nextActions :=
                   [{ command := "lowmain node update " ++ toString id,
                      label := "Update this node",
                      params := [("--set",
                        { description := some "JSON properties to set",
                          required := true })] },
                    { command := "lowmain node delete " ++ toString id,
                      label := "Delete this node" },
                    { command := "lowmain rel find --from=" ++ toString id,
                      label := "Find outgoing relationships" },
                    { command := "lowmain rel find --to=" ++ toString id,
                      label := "Find incoming relationships" },
                    { command := "lowmain rel create --from=" ++ toString id,
                      label := "Create relationship from this node",
                      params := [("--to",
                        { description := some "Target node ID", required := true }),
                       ("--type",
                        { description := some "Relationship type",
                          required := true })] }] }, tr)

/-- Handler of `rel find` (`src/commands/rels.rs`, `find_command`): no
input-validation errors are possible; connect, compile (unparseable
`--from`/`--to` flags are silently dropped by the compile), execute and
normalize the streamed relationships. -/
def relsFindRun (req : Request) (env : Env) (stream : List RelData) :
    Except AppError CommandOutput × List NetEvent :=
  match from_request req env with
  | (.error e, tr) => (.error e, tr)
  | (.ok _, tr) =>
    let cq := relsFindCompile (req.flag "from") (req.flag "to")
      (req.flag "type") (req.flag "limit")
    let rels := stream.map relation_to_json
    let count := rels.length
    (.ok { data := .obj [("relationships", .arr (rels.map .obj)),
                         ("count", .numI (count : Int))],
           nextActions :=
             [{ command := "lowmain rel create",
                label := "Create a relationship",
                params := [("--from",
                  { description := some "Source node ID", required := true }),
                 ("--to",
                  { description := some "Target node ID", required := true }),
                 ("--type",
                  { description := some "Relationship type", required := true })] },
              { command := "lowmain schema types",
                label := "View relationship types" }] },
     tr ++ [.execute cq.text])

/-- The read-mode row-collection loop of `query`
(`src/commands/query.rs` lines 66–73): fetch the next row; stop at
stream end; if the collected count has reached the limit, stop without
keeping the fetched row; else keep it. -/
def collectLoop (limit : Nat) (acc : List Json) : List Json → List Json
  | [] => acc
  | r :: rest =>
    if limit ≤ acc.length then acc else collectLoop limit (acc ++ [r]) rest

/-- Handler of `query` (`src/commands/query.rs`, `register`): require the
positional Cypher text, resolve the limit (default 100) and the write
flag, connect, parse `--params` through the external JSON parser
`jsonParse` (a malformed value is only detected here, after the
connect), then either fire-and-forget (`--write`: one `run`, no rows,
no `truncated` field) or collect rows up to the limit and mark
`truncated` when the collected count reached the limit. `stream` is
the store's reply, with each row already rendered by `row_to_json`. -/
def queryRun (req : Request) (env : Env)
    (jsonParse : String → Except String (List (String × Json)))
    (stream : List Json) :
    Except AppError CommandOutput × List NetEvent :=
  match req.arg 0 with
  | none =>
    (.error (.invalidParams
      "Missing Cypher query. Usage: lowmain query \x22MATCH (n) RETURN n\x22"), [])
  | some cypher =>
    let limit := limitOf (req.flag "limit")
    let isWrite := (req.flag "write").isSome
    match from_request req env with
    | (.error e, tr) => (.error e, tr)
    | (.ok _, tr) =>
      let paramsRes : Except AppError (List (String × ParamVal)) :=
        match req.flag "params" with
        | none => .ok []
        | some ps =>
          match jsonParse ps with
          | .error e => .error (.invalidParams ("Invalid --params JSON: " ++ e))
          | .ok fields => .ok (fields.map (fun kv => (kv.1, jsonToParam kv.2)))
      match paramsRes with
      | .error e => (.error e, tr)
      | .ok _ =>
        if isWrite then
          (.ok { data := .obj [("executed", .bool true),
                               ("cypher", .str cypher),
                               ("mode", .str "write")],
                 nextActions :=
                   [{ command := "lowmain schema",
                      label := "Check schema after mutation" },
                    { command := "lowmain query",
                      label := "Run another query",
                      params := [("cypher", { required := true })] }] },
           tr ++ [.run cypher])
        else
          let rows := collectLoop limit [] stream
          let count := rows.length
          let truncated := decide (limit ≤ count)
          (.ok { data := .obj [("cypher", .str cypher),
                               ("rows", .arr rows),
                               ("count", .numI (count : Int)),
                               ("truncated", .bool truncated),
                               ("limit", .numI (limit : Int))],
                 nextActions :=
                   [{ command := "lowmain query",
                      label := "Run another query",
                      params := [("cypher", { required := true })] },
                    { command := "lowmain schema",
                      label := "Explore database structure" }] },
           tr ++ [.execute cypher])

/-! ## Helper lemmas -/

theorem mapGet_mapInsert_self (m : List (String × Json)) (k : String) (v : Json) :
    mapGet (mapInsert m k v) k = some v := by
  induction m with
  | nil => simp [mapInsert, mapGet]
  | cons kv rest ih =>
    obtain ⟨k', v'⟩ := kv
    by_cases h : k' = k
    · simp [mapInsert, mapGet, h]
    · simpa [mapInsert, mapGet, h] using ih

theorem mapGet_mapInsert_ne (m : List (String × Json)) (k k' : String) (v : Json)
    (h : k' ≠ k) : mapGet (mapInsert m k' v) k = mapGet m k := by
  induction m with
  | nil => simp [mapInsert, mapGet, h]
  | cons kv rest ih =>
    obtain ⟨k₀, v₀⟩ := kv
    by_cases h₀ : k₀ = k'
    · simp [mapInsert, mapGet, h₀, h]
    · by_cases h₁ : k₀ = k
      · subst h₁
        simp [mapInsert, mapGet, h₀]
      · simpa [mapInsert, mapGet, h₀, h₁] using ih

theorem mapGet_foldl_insert_of_not_mem (f : String × BoltVal → Json)
    (ps : List (String × BoltVal)) (m : List (String × Json)) (k : String)
    (h : ∀ kv ∈ ps, kv.1 ≠ k) :
    mapGet (ps.foldl (fun m kv => mapInsert m kv.1 (f kv)) m) k = mapGet m k := by
  induction ps generalizing m with
  | nil => simp
  | cons kv rest ih =>
    simp only [List.foldl_cons]
    rw [ih _ (fun kv hkv => h kv (List.mem_cons_of_mem _ hkv)),
      mapGet_mapInsert_ne _ _ _ _ (h kv (List.mem_cons_self _ _))]

theorem mapGet_foldl_insert_isSome (f : String × BoltVal → Json)
    (ps : List (String × BoltVal)) (m : List (String × Json)) (k : String)
    (h : (mapGet m k).isSome = true) :
    (mapGet (ps.foldl (fun m kv => mapInsert m kv.1 (f kv)) m) k).isSome = true := by
  induction ps generalizing m with
  | nil => simpa
  | cons kv rest ih =>
    simp only [List.foldl_cons]
    apply ih
    by_cases hk : kv.1 = k
    · rw [hk, mapGet_mapInsert_self]; rfl
    · rwa [mapGet_mapInsert_ne _ _ _ _ hk]

theorem collectLoop_eq_append_take (limit : Nat) (s : List Json) :
    ∀ acc, acc.length ≤ limit →
      collectLoop limit acc s = acc ++ s.take (limit - acc.length) := by
  induction s with
  | nil => intro acc _; simp [collectLoop]
  | cons r rest ih =>
    intro acc hacc
    by_cases h : limit ≤ acc.length
    · have hl : limit - acc.length = 0 := by omega
      simp [collectLoop, h, hl]
    · have hlt : ¬ limit ≤ acc.length := h
      rw [collectLoop, if_neg hlt, ih (acc ++ [r]) (by simp; omega)]
      have hstep : limit - acc.length = (limit - (acc ++ [r]).length) + 1 := by
        simp; omega
      rw [hstep, List.take_succ_cons, List.append_assoc]
      simp

theorem collectLoop_nil_eq_take (limit : Nat) (s : List Json) :
    collectLoop limit [] s = s.take limit := by
  simpa using collectLoop_eq_append_take limit s [] (by simp)

theorem splitOnceAux_append (c : Char) (p v : List Char)
    (hp : ∀ x ∈ p, x ≠ c) :
    splitOnceAux c (p ++ c :: v) = some (p, v) := by
  induction p with
  | nil => simp [splitOnceAux]
  | cons x xs ih =>
    have hx : x ≠ c := hp x (List.mem_cons_self _ _)
    have ih' := ih (fun y hy => hp y (List.mem_cons_of_mem _ hy))
    show (if x = c then some ([], xs ++ c :: v)
      else (splitOnceAux c (xs ++ c :: v)).map (fun p => (x :: p.1, p.2))) =
        some (x :: xs, v)
    rw [if_neg hx, ih']
    rfl

theorem splitOnce_append (p v : String) (hp : ∀ x ∈ p.toList, x ≠ '=') :
    splitOnce (p ++ "=" ++ v) '=' = some (p, v) := by
  unfold splitOnce
  have hl : (p ++ "=" ++ v).toList = p.toList ++ '=' :: v.toList := by
    simp [String.toList]
  rw [hl, splitOnceAux_append _ _ _ hp]
  rfl

/-! ## Claim theorems -/

/-- C2: the error classifier `map_neo4j_error` is a total, deterministic,
side-effect-free function of the driver error's textual description (it
is a Lean function of the message string alone) and applies, first match
wins, the spec's priority order: authentication markers, then syntax
markers, then constraint markers, then connection markers, with
`QueryFailed` as the catch-all — i.e. it coincides with the
first-match-wins classification `classifySpec` over the ordered rule
table. -/
theorem map_neo4j_error_matches_spec_priority (msg : String) :
    map_neo4j_error msg = classifySpec msg := by
  unfold map_neo4j_error classifySpec classifyRules
  cases h1 : authMarkers.any (fun m => strContains msg m) <;>
  cases h2 : syntaxMarkers.any (fun m => strContains msg m) <;>
  cases h3 : constraintMarkers.any (fun m => strContains msg m) <;>
  cases h4 : connectionMarkers.any (fun m => strContains msg m) <;>
  simp only [authMarkers, syntaxMarkers, constraintMarkers, connectionMarkers,
    List.any_cons, List.any_nil, Bool.or_false] at h1 h2 h3 h4 <;>
  simp [authMarkers, syntaxMarkers, constraintMarkers, connectionMarkers,
    List.find?, List.any_cons, List.any_nil, Bool.or_false, Bool.or_assoc,
    h1, h2, h3, h4]

/-- C3 counterexample: the description "authentication refused" contains
"refused" yet is classified as `AuthenticationFailed` (the
authentication markers match first), not `ConnectionFailed`, and its
retry flag is false — refuting the claim that every description
containing "refused" yields `ConnectionFailed` with retryable=true. -/
theorem refused_but_not_connection_counterexample :
    strContains "authentication refused" "refused" = true ∧
    map_neo4j_error "authentication refused" =
      .authenticationFailed "authentication refused" ∧
    (∀ r, map_neo4j_error "authentication refused" ≠ .connectionFailed r) ∧
    (map_neo4j_error "authentication refused").retryable = false := by
  refine ⟨by decide, by decide, ?_, by decide⟩
  intro r
  rw [show map_neo4j_error "authentication refused" =
    .authenticationFailed "authentication refused" by decide]
  simp

/-- C3 amended: every driver error description containing "refused" and
matching no higher-priority marker (authentication, syntax, constraint)
classifies as `ConnectionFailed` with retryable=true; and `retryable`
holds only for the `ConnectionFailed` kind. -/
theorem refused_classification_amended (msg : String)
    (h : strContains msg "refused" = true)
    (hA : authMarkers.any (fun m => strContains msg m) = false)
    (hS : syntaxMarkers.any (fun m => strContains msg m) = false)
    (hC : constraintMarkers.any (fun m => strContains msg m) = false) :
    map_neo4j_error msg = .connectionFailed msg ∧
    (map_neo4j_error msg).retryable = true ∧
    (∀ e : AppError, e.retryable = true → ∃ r, e = .connectionFailed r) := by
  simp only [authMarkers, syntaxMarkers, constraintMarkers, List.any_cons,
    List.any_nil, Bool.or_false, Bool.or_eq_false_iff] at hA hS hC
  obtain ⟨hA1, hA2, hA3⟩ := hA
  obtain ⟨hS1, hS2⟩ := hS
  obtain ⟨hC1, hC2⟩ := hC
  have hmap : map_neo4j_error msg = .connectionFailed msg := by
    unfold map_neo4j_error
    simp [hA1, hA2, hA3, hS1, hS2, hC1, hC2, h]
  refine ⟨hmap, by rw [hmap]; rfl, ?_⟩
  intro e he
  cases e <;> first
    | exact ⟨_, rfl⟩
    | simp [AppError.retryable] at he

/-- C3 amended, witness: the theorem applied at the concrete description
"refused". -/
theorem refused_classification_amended_witness :
    map_neo4j_error "refused" = .connectionFailed "refused" ∧
    (map_neo4j_error "refused").retryable = true ∧
    (∀ e : AppError, e.retryable = true → ∃ r, e = .connectionFailed r) :=
  refused_classification_amended "refused" (by decide) (by decide) (by decide)
    (by decide)

/-- C5 counterexample: the top-level `schema` command derives one
`node find` suggestion per label of a variable-length label list with
no cap — six labels yield six result-derived suggestions, refuting the
cap of 5. -/
theorem schema_suggestions_uncapped_counterexample :
    ((schemaRegisterNextActions ["A", "B", "C", "D", "E", "F"]).filter
      (fun a => strContains a.command "node find --label=")).length = 6 ∧
    ¬ ((schemaRegisterNextActions ["A", "B", "C", "D", "E", "F"]).filter
      (fun a => strContains a.command "node find --label=")).length ≤ 5 := by
  constructor <;> decide

/-- C5 amended: only `node find` caps its result-derived suggestions at
5 (via `take(5)`, plus one fixed suggestion); the schema commands emit
one suggestion per label or relationship type with no cap (`schema`
adds two fixed suggestions). -/
theorem suggestion_list_lengths (ids : List Int) (label : String)
    (labels types : List String) :
    (nodesFindNextActions ids label).length = min 5 ids.length + 1 ∧
    (schemaRegisterNextActions labels).length = labels.length + 2 ∧
    (schemaLabelsNextActions labels).length = labels.length ∧
    (schemaTypesNextActions types).length = types.length := by
  simp [nodesFindNextActions, schemaRegisterNextActions, schemaLabelsNextActions,
    schemaTypesNextActions]

/-- C6 counterexample: a node carrying a user property literally named
"_id" has that property overwrite the reserved key — the emitted `_id`
is 999, not the node's internal id 1. -/
theorem reserved_key_overwritten_counterexample :
    mapGet (node_to_json
        { id := 1, labels := ["Person"], props := [("_id", .int 999)] }) "_id" =
      some (.numI 999) ∧
    (999 : Int) ≠ 1 :=
  ⟨rfl, by decide⟩

/-- C6 amended: `node_to_json` always emits the keys `_id` and
`_labels`; and provided no user property is itself named "_id" or
"_labels", those keys hold the node's internal id and its ordered label
sequence (a user property with one of those names overwrites the
reserved value). -/
theorem reserved_keys_present (n : NodeData) :
    (mapGet (node_to_json n) "_id").isSome = true ∧
    (mapGet (node_to_json n) "_labels").isSome = true ∧
    ((∀ kv ∈ n.props, kv.1 ≠ "_id") →
      mapGet (node_to_json n) "_id" = some (.numI n.id)) ∧
    ((∀ kv ∈ n.props, kv.1 ≠ "_labels") →
      mapGet (node_to_json n) "_labels" = some (.arr (n.labels.map .str))) := by
  unfold node_to_json
  refine ⟨?_, ?_, ?_, ?_⟩
  · apply mapGet_foldl_insert_isSome
    rw [mapGet_mapInsert_ne _ _ _ _ (by decide), mapGet_mapInsert_self]
    rfl
  · apply mapGet_foldl_insert_isSome
    rw [mapGet_mapInsert_self]
    rfl
  · intro h
    rw [mapGet_foldl_insert_of_not_mem _ _ _ _ h,
      mapGet_mapInsert_ne _ _ _ _ (by decide), mapGet_mapInsert_self]
  · intro h
    rw [mapGet_foldl_insert_of_not_mem _ _ _ _ h, mapGet_mapInsert_self]

/-- C6 amended, witness: the theorem applied to a concrete node with an
ordinary property. -/
theorem reserved_keys_present_witness :
    (mapGet (node_to_json
      { id := 7, labels := ["Person"], props := [("name", .str "Alice")] })
      "_id").isSome = true ∧
    (mapGet (node_to_json
      { id := 7, labels := ["Person"], props := [("name", .str "Alice")] })
      "_labels").isSome = true ∧
    ((∀ kv ∈ [(("name" : String), BoltVal.str "Alice")], kv.1 ≠ "_id") →
      mapGet (node_to_json
        { id := 7, labels := ["Person"], props := [("name", .str "Alice")] })
        "_id" = some (.numI 7)) ∧
    ((∀ kv ∈ [(("name" : String), BoltVal.str "Alice")], kv.1 ≠ "_labels") →
      mapGet (node_to_json
        { id := 7, labels := ["Person"], props := [("name", .str "Alice")] })
        "_labels" = some (.arr (["Person"].map .str))) :=
  reserved_keys_present
    { id := 7, labels := ["Person"], props := [("name", .str "Alice")] }

/-- C9: node-property conversion tries, in the fixed order, integer,
float, boolean, string, array-of-string, array-of-integer (first
success wins, `null` when none succeeds), and relationship-property
conversion applies the same ordered strategy restricted to integer,
float, boolean, string; both are total Lean functions and never raise
an error. -/
theorem property_conversion_order (v : BoltVal) :
    node_field_to_json v = orderedAttempt nodeDecoders v ∧
    rel_field_to_json v = orderedAttempt relDecoders v := by
  constructor
  · cases v with
    | list xs =>
      cases hs : List.mapM.loop BoltVal.asString xs [] <;>
      cases hi : List.mapM.loop BoltVal.asI64 xs [] <;>
      simp [node_field_to_json, orderedAttempt, nodeDecoders, BoltVal.asI64,
        BoltVal.asF64, BoltVal.asBool, BoltVal.asString, BoltVal.asVecString,
        BoltVal.asVecI64, List.mapM, hs, hi]
    | _ =>
      simp [node_field_to_json, orderedAttempt, nodeDecoders, BoltVal.asI64,
        BoltVal.asF64, BoltVal.asBool, BoltVal.asString, BoltVal.asVecString,
        BoltVal.asVecI64]
  · cases v <;>
      simp [rel_field_to_json, orderedAttempt, relDecoders, BoltVal.asI64,
        BoltVal.asF64, BoltVal.asBool, BoltVal.asString]

set_option maxRecDepth 8192 in
/-- C1 counterexample: the untrusted `--limit` flag value originates
from user input and is not a structural identifier, yet it is
concatenated into the compiled query text (here "LIMIT 7777") and bound
to no parameter — both `node find` and `rel find` compile with an empty
or limit-free parameter list while the text contains the limit. -/
theorem limit_concatenated_counterexample :
    nodesFindCompile "Person" none (some "7777") =
      .ok { text := "MATCH (n:`Person`) RETURN n LIMIT 7777", params := [] } ∧
    strContains "MATCH (n:`Person`) RETURN n LIMIT 7777" "7777" = true ∧
    (relsFindCompile none none none (some "7777")).params = [] ∧
    strContains (relsFindCompile none none none (some "7777")).text "7777" = true :=
  ⟨rfl, by decide, rfl, by decide⟩

/-- C1 amended: property-filter values and endpoint ids are bound as
named parameters (`$val`, `$from_id`, `$to_id`) and never concatenated —
the compiled text is a function of the structural identifiers and the
limit only, with label, property key and relationship type embedded as
backtick-quoted literal text; the limit, however, is concatenated into
the text as the decimal rendering of its parsed unsigned integer
(default 100), not bound as a parameter. -/
theorem values_parameterized_identifiers_quoted (label prop v f t : String)
    (ty lim : Option String)
    (hp : ∀ x ∈ prop.toList, x ≠ '=')
    (fi ti : Int) (hf : parseI64 f = some fi) (ht : parseI64 t = some ti) :
    nodesFindCompile label (some (prop ++ "=" ++ v)) lim =
      .ok { text := "MATCH (n:`" ++ label ++ "`) WHERE n.`" ++ prop ++
              "` = $val RETURN n LIMIT " ++ toString (limitOf lim),
            params := [("val", .str v)] } ∧
    relsFindCompile (some f) (some t) ty lim =
      { text := "MATCH (a)-" ++ relPatternOf ty ++ "->(b)" ++
          " WHERE id(a) = $from_id AND id(b) = $to_id" ++
          " RETURN r, id(a) AS from_id, id(b) AS to_id LIMIT " ++
          toString (limitOf lim),
        params := [("from_id", .int fi), ("to_id", .int ti)] } := by
  constructor
  · simp only [nodesFindCompile]
    rw [splitOnce_append _ _ hp]
  · simp only [relsFindCompile]
    simp only [Option.some_bind, hf, ht, Option.isSome_some, if_true]
    rfl

/-- C1 amended, witness: the theorem applied at concrete label, filter
and endpoint flags. -/
theorem values_parameterized_identifiers_quoted_witness :
    nodesFindCompile "Person" (some ("age" ++ "=" ++ "42")) none =
      .ok { text := "MATCH (n:`" ++ "Person" ++ "`) WHERE n.`" ++ "age" ++
              "` = $val RETURN n LIMIT " ++ toString (limitOf none),
            params := [("val", .str "42")] } ∧
    relsFindCompile (some "1") (some "2") (some "KNOWS") none =
      { text := "MATCH (a)-" ++ relPatternOf (some "KNOWS") ++ "->(b)" ++
          " WHERE id(a) = $from_id AND id(b) = $to_id" ++
          " RETURN r, id(a) AS from_id, id(b) AS to_id LIMIT " ++
          toString (limitOf none),
        params := [("from_id", .int 1), ("to_id", .int 2)] } :=
  values_parameterized_identifiers_quoted "Person" "age" "42" "1" "2"
    (some "KNOWS") none (by decide) 1 2 (by decide) (by decide)

/-- C4 counterexample: with a present label, a configured password and a
malformed `--where` flag, `node find` raises `InvalidParams` only after
the connect — the network trace already contains the connect event, so
this input-validation error is not raised before any network call. -/
theorem where_validated_after_connect_counterexample :
    nodesFindRun ⟨[("label", "Person"), ("where", "oops"), ("password", "pw")], []⟩
        ⟨none, none, none, none⟩ [] =
      (.error (.invalidParams "Invalid --where format. Use prop=value"),
       [NetEvent.connect]) ∧
    ([NetEvent.connect] : List NetEvent) ≠ [] :=
  ⟨rfl, by decide⟩

/-- C4 amended: missing-flag validation errors and the
`ConnectionNotConfigured` configuration error are raised with an empty
network trace (before any network call); but the malformed `--where`
filter of `node find` and the malformed `--params` JSON of `query` are
only validated after the connection is established — they yield
`InvalidParams` with the connect already on the trace, though before
any query execution. -/
theorem validation_order_amended (req : Request) (env : Env)
    (nstream : List NodeData) (qstream : List Json)
    (jp : String → Except String (List (String × Json))) :
    (req.flag "label" = none →
      nodesFindRun req env nstream =
        (.error (.invalidParams
          "Missing --label. Usage: lowmain node find --label=Person"), [])) ∧
    (resolve (req.flag "password") env.password none = none →
      (∀ label, req.flag "label" = some label →
        nodesFindRun req env nstream = (.error .connectionNotConfigured, [])) ∧
      (∀ c, req.arg 0 = some c →
        queryRun req env jp qstream = (.error .connectionNotConfigured, []))) ∧
    (∀ label w pw, req.flag "label" = some label → req.flag "where" = some w →
      splitOnce w '=' = none →
      resolve (req.flag "password") env.password none = some pw →
      nodesFindRun req env nstream =
        (.error (.invalidParams "Invalid --where format. Use prop=value"),
         [NetEvent.connect])) ∧
    (∀ c ps e pw, req.arg 0 = some c → req.flag "params" = some ps →
      jp ps = .error e →
      resolve (req.flag "password") env.password none = some pw →
      queryRun req env jp qstream =
        (.error (.invalidParams ("Invalid --params JSON: " ++ e)),
         [NetEvent.connect])) := by
  refine ⟨?_, ?_, ?_, ?_⟩
  · intro h
    simp [nodesFindRun, h]
  · intro hpw
    constructor
    · intro label hl
      simp [nodesFindRun, hl, from_request, hpw]
    · intro c hc
      simp [queryRun, hc, from_request, hpw]
  · intro label w pw hl hw hsplit hpw
    simp [nodesFindRun, hl, from_request, hpw, nodesFindCompile, hw, hsplit]
  · intro c ps e pw hc hps hjp hpw
    simp [queryRun, hc, from_request, hpw, hps, hjp]

/-- C4 amended, witness: the theorem applied to a request with a
malformed `--where`, exercising the amended post-connect validation. -/
theorem validation_order_amended_witness :
    nodesFindRun ⟨[("label", "Film"), ("where", "nofilter"), ("password", "pw")], []⟩
        ⟨none, none, none, none⟩ [] =
      (.error (.invalidParams "Invalid --where format. Use prop=value"),
       [NetEvent.connect]) :=
  (validation_order_amended
    ⟨[("label", "Film"), ("where", "nofilter"), ("password", "pw")], []⟩
    ⟨none, none, none, none⟩ [] [] (fun _ => .ok [])).2.2.1
    "Film" "nofilter" "pw" rfl rfl (by decide) rfl

/-- C8: connection resolution takes, for each field, the CLI flag if
present, else the environment variable, else the default
(uri=bolt://localhost:7687, user=neo4j, db=neo4j); password has no
default, and when it is absent from flag and environment `from_request`
fails with `ConnectionNotConfigured` — which is not retryable — with an
empty network trace, i.e. before any network attempt. -/
theorem connection_resolution (fv ev d : Option String) (req : Request)
    (env : Env) :
    (∀ x, fv = some x → resolve fv ev d = some x) ∧
    (fv = none → ∀ x, ev = some x → resolve fv ev d = some x) ∧
    (fv = none → ev = none → resolve fv ev d = d) ∧
    (req.flag "password" = none → env.password = none →
      from_request req env = (.error .connectionNotConfigured, [])) ∧
    AppError.connectionNotConfigured.retryable = false ∧
    DEFAULT_URI = "bolt://localhost:7687" ∧
    DEFAULT_USER = "neo4j" ∧ DEFAULT_DB = "neo4j" := by
  refine ⟨?_, ?_, ?_, ?_, rfl, rfl, rfl, rfl⟩
  · intro x hx
    simp [resolve, hx, Option.orElse]
  · intro h1 x hx
    simp [resolve, h1, hx, Option.orElse]
  · intro h1 h2
    simp [resolve, h1, h2, Option.orElse]
  · intro h1 h2
    simp [from_request, resolve, h1, h2, Option.orElse]

/-- C8 witness: the theorem applied at a present flag value and at a
request and environment with no password anywhere. -/
theorem connection_resolution_witness :
    (∀ x, (some "bolt://h:1" : Option String) = some x →
      resolve (some "bolt://h:1") none (some DEFAULT_URI) = some x) ∧
    ((some "bolt://h:1" : Option String) = none → ∀ x,
      (none : Option String) = some x →
      resolve (some "bolt://h:1") none (some DEFAULT_URI) = some x) ∧
    ((some "bolt://h:1" : Option String) = none →
      (none : Option String) = none →
      resolve (some "bolt://h:1") none (some DEFAULT_URI) = some DEFAULT_URI) ∧
    (Request.flag ⟨[], []⟩ "password" = none →
      Env.password ⟨none, none, none, none⟩ = none →
      from_request ⟨[], []⟩ ⟨none, none, none, none⟩ =
        (.error .connectionNotConfigured, [])) ∧
    AppError.connectionNotConfigured.retryable = false ∧
    DEFAULT_URI = "bolt://localhost:7687" ∧
    DEFAULT_USER = "neo4j" ∧ DEFAULT_DB = "neo4j" :=
  connection_resolution (some "bolt://h:1") none (some DEFAULT_URI)
    ⟨[], []⟩ ⟨none, none, none, none⟩

/-- C7: for every raw `query` invocation (with the Cypher argument
present, a configured password and well-formed `--params` when given):
in write-mode no rows are collected and the response has exactly the
fields executed/cypher/mode — in particular no `truncated` and no
`rows` field; in read-mode the collected rows are the stream truncated
to the limit and `truncated` is true exactly when the collected row
count reaches the limit (equivalently, when the stream has at least
`limit` rows); the limit defaults to 100 when the flag is absent. -/
theorem query_write_read_modes (req : Request) (env : Env)
    (jp : String → Except String (List (String × Json)))
    (stream : List Json) (c pw : String)
    (hc : req.arg 0 = some c)
    (hpw : resolve (req.flag "password") env.password none = some pw)
    (hps : ∀ ps, req.flag "params" = some ps → ∃ fs, jp ps = .ok fs) :
    (∀ w, req.flag "write" = some w →
      queryRun req env jp stream =
        (.ok { data := .obj [("executed", .bool true), ("cypher", .str c),
                 ("mode", .str "write")],
               nextActions :=
                 [{ command := "lowmain schema",
                    label := "Check schema after mutation" },
                  { command := "lowmain query",
                    label := "Run another query",
                    params := [("cypher", { required := true })] }] },
         [NetEvent.connect, NetEvent.run c]) ∧
      mapGet [("executed", .bool true), ("cypher", .str c), ("mode", .str "write")]
        "truncated" = none ∧
      mapGet [("executed", .bool true), ("cypher", .str c), ("mode", .str "write")]
        "rows" = none) ∧
    (req.flag "write" = none →
      queryRun req env jp stream =
        (.ok { data := .obj [("cypher", .str c),
                 ("rows", .arr (stream.take (limitOf (req.flag "limit")))),
                 ("count",
                   .numI ((stream.take (limitOf (req.flag "limit"))).length : Int)),
                 ("truncated", .bool (decide (limitOf (req.flag "limit") ≤
                   (stream.take (limitOf (req.flag "limit"))).length))),
                 ("limit", .numI ((limitOf (req.flag "limit") : Int)))],
               nextActions :=
                 [{ command := "lowmain query",
                    label := "Run another query",
                    params := [("cypher", { required := true })] },
                  { command := "lowmain schema",
                    label := "Explore database structure" }] },
         [NetEvent.connect, NetEvent.execute c]) ∧
      (limitOf (req.flag "limit") ≤
          (stream.take (limitOf (req.flag "limit"))).length ↔
        limitOf (req.flag "limit") ≤ stream.length) ∧
      (req.flag "limit" = none → limitOf (req.flag "limit") = 100)) := by
  have hparamsOk : (match req.flag "params" with
      | none => Except.ok []
      | some ps =>
        match jp ps with
        | .error e =>
          Except.error (AppError.invalidParams ("Invalid --params JSON: " ++ e))
        | .ok fields =>
          Except.ok (fields.map (fun kv => (kv.1, jsonToParam kv.2)))) =
      Except.ok (match req.flag "params" with
        | none => []
        | some ps =>
          match jp ps with
          | .error _ => []
          | .ok fields => fields.map (fun kv => (kv.1, jsonToParam kv.2))) := by
    cases hp : req.flag "params" with
    | none => rfl
    | some ps =>
      obtain ⟨fs, hfs⟩ := hps ps hp
      simp [hfs]
  constructor
  · intro w hw
    refine ⟨?_, rfl, rfl⟩
    simp only [queryRun, hc, from_request, hpw, hparamsOk, hw]
    rfl
  · intro hw
    refine ⟨?_, ?_, ?_⟩
    · simp only [queryRun, hc, from_request, hpw, hparamsOk, hw]
      simp [collectLoop_nil_eq_take]
    · rw [List.length_take]
      omega
    · intro h
      simp [limitOf, h]

/-- C7 witness: the theorem applied to a read-mode request with limit 1
against a three-row stream — exactly one row comes back and `truncated`
is true. -/
theorem query_write_read_modes_witness :
    queryRun ⟨[("limit", "1"), ("password", "pw")], ["MATCH (n) RETURN n"]⟩
        ⟨none, none, none, none⟩ (fun _ => .ok [])
        [.numI 1, .numI 2, .numI 3] =
      (.ok { data := .obj [("cypher", .str "MATCH (n) RETURN n"),
               ("rows", .arr [.numI 1]),
               ("count", .numI 1),
               ("truncated", .bool true),
               ("limit", .numI 1)],
             nextActions :=
               [{ command := "lowmain query",
                  label := "Run another query",
                  params := [("cypher", { required := true })] },
                { command := "lowmain schema",
                  label := "Explore database structure" }] },
       [NetEvent.connect, NetEvent.execute "MATCH (n) RETURN n"]) :=
  (((query_write_read_modes
    ⟨[("limit", "1"), ("password", "pw")], ["MATCH (n) RETURN n"]⟩
    ⟨none, none, none, none⟩ (fun _ => .ok [])
    [.numI 1, .numI 2, .numI 3] "MATCH (n) RETURN n" "pw"
    rfl rfl (fun _ h => nomatch h)).2) rfl).1

/-- C10: in `rel find`, a `--from` or `--to` flag whose value does not
parse as a 64-bit integer is silently ignored — the compiled query is
the one obtained with the flag absent, and `rel find` never raises
`InvalidParams` — whereas `node get` turns an unparseable positional id
into an `InvalidParams` error before any network call. -/
theorem rel_find_ignores_unparseable_endpoints (s idStr : String)
    (hs : parseI64 s = none)
    (toFlag ty lim fr : Option String)
    (req : Request) (env : Env) (stream : List NodeData)
    (hid : req.arg 0 = some idStr) (hparse : parseI64 idStr = none) :
    relsFindCompile (some s) toFlag ty lim = relsFindCompile none toFlag ty lim ∧
    relsFindCompile fr (some s) ty lim = relsFindCompile fr none ty lim ∧
    (∀ (req' : Request) (env' : Env) (stream' : List RelData) (r : String),
      (relsFindRun req' env' stream').1 ≠ .error (.invalidParams r)) ∧
    nodeGetRun req env stream =
      (.error (.invalidParams ("Invalid node ID: " ++ idStr)), []) := by
  refine ⟨?_, ?_, ?_, ?_⟩
  · simp [relsFindCompile, hs]
  · simp [relsFindCompile, hs]
  · intro req' env' stream' r
    unfold relsFindRun from_request
    cases hres : resolve (req'.flag "password") env'.password none <;>
      simp [hres]
  · simp [nodeGetRun, hid, hparse]

/-- C10 witness: the theorem applied at the unparseable flag and id
value "abc". -/
theorem rel_find_ignores_unparseable_endpoints_witness :
    relsFindCompile (some "abc") none none none =
      relsFindCompile none none none none ∧
    relsFindCompile none (some "abc") none none =
      relsFindCompile none none none none ∧
    (∀ (req' : Request) (env' : Env) (stream' : List RelData) (r : String),
      (relsFindRun req' env' stream').1 ≠ .error (.invalidParams r)) ∧
    nodeGetRun ⟨[], ["abc"]⟩ ⟨none, none, none, none⟩ [] =
      (.error (.invalidParams ("Invalid node ID: " ++ "abc")), []) :=
  rel_find_ignores_unparseable_endpoints "abc" "abc" (by decide)
    none none none none ⟨[], ["abc"]⟩ ⟨none, none, none, none⟩ []
    rfl (by decide)

end Lowmain
